import Mathlib

/-!
Shallow embedding of `cmd/config-shard-validator/main.go` from the
`ci-tools` repository.

The tool loads a Prow plugin configuration whose `ConfigUpdater.Maps`
field maps glob patterns to update configurations (config-map name,
target cluster aliases, gzip flag), builds an inventory of CI operator
configuration files and Prow job configuration files, and then checks
that every discovered path belongs to exactly one auto-updating config
map, that injected `CONFIG_SPEC` environment variables reference the
right config-map shard, and assorted side conditions.

Modelling decisions, all mirroring the Go source:
* Every `logger.Error*` call that is paired with `foundFailures = true`
  is modelled as the emission of a structured `Failure` record carrying
  exactly the structured log fields and format arguments of that call;
  `Warn` calls emit nothing.  The Go program's final exit status is
  failure iff the emitted list is nonempty.
* The glob matcher (`zglob.Match`, an external collaborator) is an
  abstract fallible predicate `Matcher`; `none` models a returned
  error, in which case the Go `matches` value is the zero value `false`.
* Go maps iterated with `range` are modelled as association lists; a Go
  map read is modelled as a lookup function `String → Option _`, and a
  Go map write as a pointwise functional update (last write wins).
-/

/-- `prowv1.DefaultClusterAlias`, the reserved cluster alias checked at
main.go:127. -/
def defaultClusterAlias : String := "default"

/-- The literal job-configuration root path `"ci-operator/jobs"` matched
against every glob at main.go:137. -/
def jobConfigRoot : String := "ci-operator/jobs"

/-- One value of `pcfg.ConfigUpdater.Maps`: the config-map name, the set
of target cluster aliases (keys of the Go `Clusters` map), and the
optional GZIP flag (`*bool` in Go). -/
structure UpdateConfig where
  name : String
  clusters : List String
  gzip : Option Bool
deriving DecidableEq

/-- `pathWithConfig` from main.go:59-61: a discovered relative path and
the config-map name it is expected to belong to. -/
structure PathWithConfig where
  path : String
  configMap : String
deriving DecidableEq

/-- One structured failure record per `Error` log site that sets
`foundFailures = true` in main.go.  Constructor arguments are the
structured fields and format arguments of the corresponding log call. -/
inductive Failure where
  /-- main.go:128: forbidden default cluster alias (fields: source-file). -/
  | defaultAlias (sourceFile : String)
  /-- main.go:138: error while matching the glob against the
  job-configuration root (fields: source-file, glob). -/
  | jobConfigMatchError (sourceFile glob : String)
  /-- main.go:141: gzip must be enabled for job configs
  (fields: source-file, glob). -/
  | gzipRequired (sourceFile glob : String)
  /-- main.go:146: file matches globs from more than one config map;
  the two format arguments are `matchedMap` and `pathToCheck.configMap`. -/
  | multipleMatches (sourceFile glob first second : String)
  /-- main.go:150: file matches a glob from an unexpected config map;
  the two format arguments are `updateConfig.Name` and
  `pathToCheck.configMap`. -/
  | wrongMap (sourceFile glob got expected : String)
  /-- main.go:158: file does not belong to any auto-updating config. -/
  | noMatch (sourceFile : String)
  /-- main.go:181: no CI operator configuration file for the injected key
  (fields: source-file, job, container, key). -/
  | unknownKey (sourceFile job : String) (container : Nat) (key : String)
  /-- main.go:189: invalid config-map shard for the injected key
  (fields as above plus got/expected). -/
  | wrongShard (sourceFile job : String) (container : Nat) (key got expected : String)
deriving DecidableEq

/-- The external glob matcher `zglob.Match`: given a pattern and a name,
either a boolean match result or (`none`) an error. -/
abbrev Matcher := String → String → Option Bool

/-- The failures emitted by one iteration of the inner rule loop
(main.go:126-155) for path `p` and the rule `(glob, uc)`, given the
loop state `matchesAny`/`matchedMap` on entry.  The Go `matches` value
is `false` when `zglob.Match` errors (that error is only a warning,
main.go:135). -/
def stepFailures (m : Matcher) (p : PathWithConfig) (matchesAny : Bool)
    (matchedMap : String) (glob : String) (uc : UpdateConfig) : List Failure :=
  (if uc.clusters.contains defaultClusterAlias then
      [Failure.defaultAlias p.path]
    else []) ++
  (match m glob jobConfigRoot with
    | none => [Failure.jobConfigMatchError p.path glob]
    | some jobConfigMatch =>
        if jobConfigMatch && !(uc.gzip.getD false) then
          [Failure.gzipRequired p.path glob]
        else []) ++
  (if (m glob p.path).getD false then
      (if matchesAny then
          [Failure.multipleMatches p.path glob matchedMap p.configMap]
        else []) ++
      (if uc.name ≠ p.configMap then
          [Failure.wrongMap p.path glob uc.name p.configMap]
        else [])
    else [])

/-- The rule loop of main.go:126-160 for a single path, carrying the
`matchesAny` and `matchedMap` state exactly as the Go loop does:
`matchesAny` becomes `true` on a match, and `matchedMap` is assigned
`pathToCheck.configMap` on a match (main.go:153-154).  After the loop,
a missing match records the coverage failure (main.go:157-160). -/
def partitionRules (m : Matcher) (p : PathWithConfig) :
    Bool → String → List (String × UpdateConfig) → List Failure
  | matchesAny, _, [] =>
      if matchesAny then [] else [Failure.noMatch p.path]
  | matchesAny, matchedMap, (glob, uc) :: rest =>
      stepFailures m p matchesAny matchedMap glob uc ++
      partitionRules m p (matchesAny || (m glob p.path).getD false)
        (if (m glob p.path).getD false then p.configMap else matchedMap) rest

/-- All failures the partition checker records for one discovered path
(one iteration of the outer loop at main.go:122). -/
def checkPath (m : Matcher) (maps : List (String × UpdateConfig))
    (p : PathWithConfig) : List Failure :=
  partitionRules m p false "" maps

/-- The outer loop of main.go:122-161 over all discovered paths. -/
def validatePaths (m : Matcher) (maps : List (String × UpdateConfig))
    (paths : List PathWithConfig) : List Failure :=
  paths.flatMap (checkPath m maps)

/-- `v1.ConfigMapKeySelector`: the config-map name and key of a
`ConfigMapKeyRef`.  The Go checks `env.ValueFrom != nil &&
env.ValueFrom.ConfigMapKeyRef != nil`; both `nil` cases are skipped
identically, so they are collapsed into one `Option` below. -/
structure ConfigMapKeyRef where
  name : String
  key : String
deriving DecidableEq

/-- A container environment entry (`v1.EnvVar`), restricted to the
fields main.go reads. -/
structure EnvVar where
  name : String
  valueFrom : Option ConfigMapKeyRef
deriving DecidableEq

/-- A container (`v1.Container`), restricted to the fields main.go
reads. -/
structure Container where
  env : List EnvVar
deriving DecidableEq

/-- A pod spec (`v1.PodSpec`).  The Go type also carries
`InitContainers`; `checkSpec` iterates only `spec.Containers`
(main.go:170), and the field is kept in the model so that this fact is
statable. -/
structure PodSpec where
  containers : List Container
  initContainers : List Container
deriving DecidableEq

/-- `config.Info`, restricted to the one method main.go calls on a
looked-up entry: `ConfigMapName()`. -/
structure ConfigInfo where
  configMapName : String
deriving DecidableEq

/-- The body of the env loop at main.go:171-192 for one environment
entry of the container at `containerIndex`. -/
def checkEnvVar (relPath jobName : String) (containerIndex : Nat)
    (configInfos : String → Option ConfigInfo) (env  : EnvVar) : List Failure :=
  if env.name = "CONFIG_SPEC" then
    match env.valueFrom with
    | none => []
    | some ref =>
        match configInfos ref.key with
        | none => [Failure.unknownKey relPath jobName containerIndex ref.key]
        | some configInfo =>
            if ref.name ≠ configInfo.configMapName then
              [Failure.wrongShard relPath jobName containerIndex ref.key
                ref.name configInfo.configMapName]
            else []
  else []

/-- The indexed container loop of main.go:170 (`for containerIndex,
container := range spec.Containers`), with `i` the index of the first
container of `cs`. -/
def checkContainers (relPath jobName : String)
    (configInfos : String → Option ConfigInfo) :
    Nat → List Container → List Failure
  | _, [] => []
  | i, c :: cs =>
      c.env.flatMap (checkEnvVar relPath jobName i configInfos) ++
      checkContainers relPath jobName configInfos (i + 1) cs

/-- `checkSpec` (main.go:168-196), with the boolean return refined to
the list of emitted failures (`foundFailures` is the list being
nonempty).  Only `spec.Containers` is traversed. -/
def checkSpec (spec : PodSpec) (relPath jobName : String)
    (configInfos : String → Option ConfigInfo) : List Failure :=
  checkContainers relPath jobName configInfos 0 spec.containers

/-- A single Go map write `configInfos[info.Basename()] = info`
(main.go:81), as a pointwise update of the lookup function. -/
def indexInsert (idx : String → Option ConfigInfo) (e : String × ConfigInfo) :
    String → Option ConfigInfo :=
  fun k => if k = e.1 then some e.2 else idx k

/-- The `configInfos` index built at main.go:77-85: each traversed
configuration file writes `configInfos[info.Basename()] = info` into a
Go map, so a later entry with the same basename silently overwrites an
earlier one.  The traversal emits no failure record of its own: the
callback at main.go:77-83 only appends to the inventory and to the
index, and any error is fatal (main.go:84), not a recorded failure. -/
def buildConfigIndex (entries : List (String × ConfigInfo)) :
    String → Option ConfigInfo :=
  entries.foldl indexInsert (fun _ => none)

/-! ### Concrete inputs used by counterexamples and witnesses -/

/-- A matcher under which every pattern matches exactly the name `"p"`
and no call errors. -/
def matchNameP : Matcher := fun _ name => some (name == "p")

/-- A matcher under which every call errors, as `zglob.Match` does for a
malformed pattern such as `"["` regardless of the name matched. -/
def matchAlwaysErr : Matcher := fun _ _ => none

/-- A matcher that errors exactly on the job-configuration root and
reports a non-match elsewhere. -/
def matchErrRootOnly : Matcher :=
  fun _ name => if name = jobConfigRoot then none else some false

/-- Two rules with distinct config-map names `"A"` and `"B"`. -/
def rulesAB : List (String × UpdateConfig) :=
  [("a", ⟨"A", [], some true⟩), ("b", ⟨"B", [], some true⟩)]

/-- A discovered path `"p"` whose expected config map is `"E"`. -/
def pathPE : PathWithConfig := ⟨"p", "E"⟩

/-- A one-rule set whose cluster aliases include the reserved default
alias. -/
def rulesDefaultAlias : List (String × UpdateConfig) :=
  [("**", ⟨"bundle", [defaultClusterAlias], some true⟩)]

/-- An injection reference to key `"k1"` expecting config map
`"BundleX"`. -/
def refK : ConfigMapKeyRef := ⟨"BundleX", "k1"⟩

/-- A `CONFIG_SPEC` environment entry carrying `refK`. -/
def envInj : EnvVar := ⟨"CONFIG_SPEC", some refK⟩

/-- A pod spec with one main container holding `envInj` and no init
containers. -/
def specOne : PodSpec := ⟨[⟨[envInj]⟩], []⟩

/-- A configuration index mapping `"k1"` to a file whose config map is
`"BundleY"`. -/
def cfgY : String → Option ConfigInfo :=
  fun k => if k = "k1" then some ⟨"BundleY"⟩ else none

/-! ### Membership characterizations for the rule-loop body

Each `Error` log site inside one iteration of the rule loop is
characterized by the state and rule of that iteration. -/

theorem noMatch_not_mem_stepFailures (m : Matcher) (p : PathWithConfig)
    (ma : Bool) (mm : String) (g : String) (uc : UpdateConfig) (q : String) :
    Failure.noMatch q ∉ stepFailures m p ma mm g uc := by
  unfold stepFailures
  rcases hroot : m g jobConfigRoot with _ | jm <;> simp

theorem defaultAlias_mem_stepFailures (m : Matcher) (p : PathWithConfig)
    (ma : Bool) (mm : String) (g : String) (uc : UpdateConfig) (q : String) :
    Failure.defaultAlias q ∈ stepFailures m p ma mm g uc ↔
      q = p.path ∧ uc.clusters.contains defaultClusterAlias = true := by
  unfold stepFailures
  rcases hroot : m g jobConfigRoot with _ | jm <;> simp <;> tauto

theorem jobConfigMatchError_mem_stepFailures (m : Matcher) (p : PathWithConfig)
    (ma : Bool) (mm : String) (g : String) (uc : UpdateConfig) (q gl : String) :
    Failure.jobConfigMatchError q gl ∈ stepFailures m p ma mm g uc ↔
      q = p.path ∧ gl = g ∧ m g jobConfigRoot = none := by
  unfold stepFailures
  rcases hroot : m g jobConfigRoot with _ | jm <;> simp

theorem gzipRequired_mem_stepFailures (m : Matcher) (p : PathWithConfig)
    (ma : Bool) (mm : String) (g : String) (uc : UpdateConfig) (q gl : String) :
    Failure.gzipRequired q gl ∈ stepFailures m p ma mm g uc ↔
      q = p.path ∧ gl = g ∧ m g jobConfigRoot = some true ∧
        uc.gzip.getD false = false := by
  unfold stepFailures
  rcases hroot : m g jobConfigRoot with _ | jm
  · simp [hroot]
  · cases jm
    · simp [hroot]
    · simp [hroot]
      tauto

theorem wrongMap_mem_stepFailures (m : Matcher) (p : PathWithConfig)
    (ma : Bool) (mm : String) (g : String) (uc : UpdateConfig) (q gl n e : String) :
    Failure.wrongMap q gl n e ∈ stepFailures m p ma mm g uc ↔
      q = p.path ∧ gl = g ∧ n = uc.name ∧ e = p.configMap ∧
        (m g p.path).getD false = true ∧ uc.name ≠ p.configMap := by
  unfold stepFailures
  rcases hroot : m g jobConfigRoot with _ | jm <;> simp <;> tauto

theorem multipleMatches_mem_stepFailures (m : Matcher) (p : PathWithConfig)
    (ma : Bool) (mm : String) (g : String) (uc : UpdateConfig) (q gl a b : String) :
    Failure.multipleMatches q gl a b ∈ stepFailures m p ma mm g uc ↔
      q = p.path ∧ gl = g ∧ a = mm ∧ b = p.configMap ∧
        (m g p.path).getD false = true ∧ ma = true := by
  unfold stepFailures
  rcases hroot : m g jobConfigRoot with _ | jm <;> simp <;> tauto

theorem unknownKey_not_mem_stepFailures (m : Matcher) (p : PathWithConfig)
    (ma : Bool) (mm : String) (g : String) (uc : UpdateConfig)
    (rp j : String) (i : Nat) (k : String) :
    Failure.unknownKey rp j i k ∉ stepFailures m p ma mm g uc := by
  unfold stepFailures
  rcases hroot : m g jobConfigRoot with _ | jm <;> simp

theorem wrongShard_not_mem_stepFailures (m : Matcher) (p : PathWithConfig)
    (ma : Bool) (mm : String) (g : String) (uc : UpdateConfig)
    (rp j : String) (i : Nat) (k n e : String) :
    Failure.wrongShard rp j i k n e ∉ stepFailures m p ma mm g uc := by
  unfold stepFailures
  rcases hroot : m g jobConfigRoot with _ | jm <;> simp

/-! ### Membership characterizations for the whole rule loop -/

theorem noMatch_mem_partitionRules (m : Matcher) (p : PathWithConfig) :
    ∀ (rules : List (String × UpdateConfig)) (ma : Bool) (mm q : String),
    Failure.noMatch q ∈ partitionRules m p ma mm rules ↔
      q = p.path ∧ ma = false ∧
        ∀ r ∈ rules, (m r.1 p.path).getD false = false := by
  intro rules
  induction rules with
  | nil => intro ma mm q; cases ma <;> simp [partitionRules]
  | cons r rest ih =>
      intro ma mm q
      obtain ⟨g, uc⟩ := r
      rw [partitionRules]
      simp only [List.mem_append, noMatch_not_mem_stepFailures, false_or, ih,
        List.forall_mem_cons]
      cases hm : (m g p.path).getD false <;> cases ma <;> simp [hm]

theorem gzipRequired_mem_partitionRules (m : Matcher) (p : PathWithConfig) :
    ∀ (rules : List (String × UpdateConfig)) (ma : Bool) (mm q gl : String),
    Failure.gzipRequired q gl ∈ partitionRules m p ma mm rules ↔
      ∃ uc, (gl, uc) ∈ rules ∧ q = p.path ∧
        m gl jobConfigRoot = some true ∧ uc.gzip.getD false = false := by
  intro rules
  induction rules with
  | nil => intro ma mm q gl; cases ma <;> simp [partitionRules]
  | cons r rest ih =>
      intro ma mm q gl
      obtain ⟨g, uc⟩ := r
      rw [partitionRules]
      simp only [List.mem_append, gzipRequired_mem_stepFailures, ih,
        List.mem_cons, Prod.mk.injEq]
      constructor
      · rintro (⟨hq, hgl, hroot, hgz⟩ | ⟨uc', huc', hq, hroot, hgz⟩)
        · exact ⟨uc, Or.inl ⟨hgl.symm ▸ rfl, rfl⟩, hq, hgl ▸ hroot, hgz⟩
        · exact ⟨uc', Or.inr huc', hq, hroot, hgz⟩
      · rintro ⟨uc', (⟨hgl, huc⟩ | hmem), hq, hroot, hgz⟩
        · subst hgl; subst huc; exact Or.inl ⟨hq, rfl, hroot, hgz⟩
        · exact Or.inr ⟨uc', hmem, hq, hroot, hgz⟩

theorem jobConfigMatchError_mem_partitionRules (m : Matcher) (p : PathWithConfig) :
    ∀ (rules : List (String × UpdateConfig)) (ma : Bool) (mm q gl : String),
    Failure.jobConfigMatchError q gl ∈ partitionRules m p ma mm rules ↔
      ∃ uc, (gl, uc) ∈ rules ∧ q = p.path ∧ m gl jobConfigRoot = none := by
  intro rules
  induction rules with
  | nil => intro ma mm q gl; cases ma <;> simp [partitionRules]
  | cons r rest ih =>
      intro ma mm q gl
      obtain ⟨g, uc⟩ := r
      rw [partitionRules]
      simp only [List.mem_append, jobConfigMatchError_mem_stepFailures, ih,
        List.mem_cons, Prod.mk.injEq]
      constructor
      · rintro (⟨hq, hgl, hroot⟩ | ⟨uc', huc', hq, hroot⟩)
        · exact ⟨uc, Or.inl ⟨hgl.symm ▸ rfl, rfl⟩, hq, hgl ▸ hroot⟩
        · exact ⟨uc', Or.inr huc', hq, hroot⟩
      · rintro ⟨uc', (⟨hgl, huc⟩ | hmem), hq, hroot⟩
        · subst hgl; subst huc; exact Or.inl ⟨hq, rfl, hroot⟩
        · exact Or.inr ⟨uc', hmem, hq, hroot⟩

theorem wrongMap_mem_partitionRules (m : Matcher) (p : PathWithConfig) :
    ∀ (rules : List (String × UpdateConfig)) (ma : Bool) (mm q gl n e : String),
    Failure.wrongMap q gl n e ∈ partitionRules m p ma mm rules ↔
      ∃ uc, (gl, uc) ∈ rules ∧ q = p.path ∧ n = uc.name ∧ e = p.configMap ∧
        (m gl p.path).getD false = true ∧ uc.name ≠ p.configMap := by
  intro rules
  induction rules with
  | nil => intro ma mm q gl n e; cases ma <;> simp [partitionRules]
  | cons r rest ih =>
      intro ma mm q gl n e
      obtain ⟨g, uc⟩ := r
      rw [partitionRules]
      simp only [List.mem_append, wrongMap_mem_stepFailures, ih,
        List.mem_cons, Prod.mk.injEq]
      constructor
      · rintro (⟨hq, hgl, hn, he, hmt, hne⟩ | ⟨uc', huc', rest'⟩)
        · exact ⟨uc, Or.inl ⟨hgl.symm ▸ rfl, rfl⟩, hq, hn, he, hgl ▸ hmt, hne⟩
        · exact ⟨uc', Or.inr huc', rest'⟩
      · rintro ⟨uc', (⟨hgl, huc⟩ | hmem), hq, hn, he, hmt, hne⟩
        · subst hgl; subst huc; exact Or.inl ⟨hq, rfl, hn, he, hmt, hne⟩
        · exact Or.inr ⟨uc', hmem, hq, hn, he, hmt, hne⟩

theorem defaultAlias_mem_partitionRules (m : Matcher) (p : PathWithConfig) :
    ∀ (rules : List (String × UpdateConfig)) (ma : Bool) (mm q : String),
    Failure.defaultAlias q ∈ partitionRules m p ma mm rules ↔
      q = p.path ∧ ∃ g uc, (g, uc) ∈ rules ∧
        uc.clusters.contains defaultClusterAlias = true := by
  intro rules
  induction rules with
  | nil => intro ma mm q; cases ma <;> simp [partitionRules]
  | cons r rest ih =>
      intro ma mm q
      obtain ⟨g, uc⟩ := r
      rw [partitionRules]
      simp only [List.mem_append, defaultAlias_mem_stepFailures, ih,
        List.mem_cons, Prod.mk.injEq]
      constructor
      · rintro (⟨hq, hal⟩ | ⟨hq, g', uc', hmem, hal⟩)
        · exact ⟨hq, g, uc, Or.inl ⟨rfl, rfl⟩, hal⟩
        · exact ⟨hq, g', uc', Or.inr hmem, hal⟩
      · rintro ⟨hq, g', uc', (huc | hmem), hal⟩
        · obtain ⟨hg, huc⟩ := huc; subst hg; subst huc; exact Or.inl ⟨hq, hal⟩
        · exact Or.inr ⟨hq, g', uc', hmem, hal⟩

theorem unknownKey_not_mem_partitionRules (m : Matcher) (p : PathWithConfig) :
    ∀ (rules : List (String × UpdateConfig)) (ma : Bool) (mm : String)
      (rp j : String) (i : Nat) (k : String),
    Failure.unknownKey rp j i k ∉ partitionRules m p ma mm rules := by
  intro rules
  induction rules with
  | nil => intro ma mm rp j i k; cases ma <;> simp [partitionRules]
  | cons r rest ih =>
      intro ma mm rp j i k
      obtain ⟨g, uc⟩ := r
      rw [partitionRules]
      simp [List.mem_append, unknownKey_not_mem_stepFailures, ih]

theorem wrongShard_not_mem_partitionRules (m : Matcher) (p : PathWithConfig) :
    ∀ (rules : List (String × UpdateConfig)) (ma : Bool) (mm : String)
      (rp j : String) (i : Nat) (k n e : String),
    Failure.wrongShard rp j i k n e ∉ partitionRules m p ma mm rules := by
  intro rules
  induction rules with
  | nil => intro ma mm rp j i k n e; cases ma <;> simp [partitionRules]
  | cons r rest ih =>
      intro ma mm rp j i k n e
      obtain ⟨g, uc⟩ := r
      rw [partitionRules]
      simp [List.mem_append, wrongShard_not_mem_stepFailures, ih]

/-! ### The claims about the partition checker -/

/-- C1. Coverage: the partition checker records the coverage failure
("Config file does not belong to any auto-updating config", main.go:158)
for a discovered path exactly when no glob rule in the rule set matches
that path, and such a failure always names exactly that path. -/
theorem coverage_failure_iff (m : Matcher) (maps : List (String × UpdateConfig))
    (p : PathWithConfig) (q : String) :
    Failure.noMatch q ∈ checkPath m maps p ↔
      q = p.path ∧ ∀ r ∈ maps, (m r.1 p.path).getD false = false := by
  rw [checkPath, noMatch_mem_partitionRules]
  tauto

/-- C3. Correctness: the partition checker records the mismatch failure
("File matches glob from unexpected ConfigMap ... instead of ...",
main.go:150) exactly for those rules whose glob matches the path and
whose config-map name differs from the path's expected one, and the
failure carries the rule's name and the expected name; a matching rule
whose name equals the expected one contributes no such failure. -/
theorem wrongMap_failure_iff (m : Matcher) (maps : List (String × UpdateConfig))
    (p : PathWithConfig) (q gl n e : String) :
    Failure.wrongMap q gl n e ∈ checkPath m maps p ↔
      ∃ uc, (gl, uc) ∈ maps ∧ q = p.path ∧ n = uc.name ∧ e = p.configMap ∧
        (m gl p.path).getD false = true ∧ uc.name ≠ p.configMap := by
  rw [checkPath, wrongMap_mem_partitionRules]

/-- C6. Job-config compression: during the check of any discovered path,
the "gzip must be enabled for job configs" failure (main.go:141) is
recorded for a glob exactly when some rule with that glob matches the
job-configuration root and has its gzip flag absent or disabled; a rule
with gzip enabled contributes no such failure. -/
theorem gzipRequired_failure_iff (m : Matcher) (maps : List (String × UpdateConfig))
    (p : PathWithConfig) (q gl : String) :
    Failure.gzipRequired q gl ∈ checkPath m maps p ↔
      ∃ uc, (gl, uc) ∈ maps ∧ q = p.path ∧
        m gl jobConfigRoot = some true ∧ uc.gzip.getD false = false := by
  rw [checkPath, gzipRequired_mem_partitionRules]

/-- C2. Uniqueness (evaluation at the failing input): path `"p"` with
expected config map `"E"` matches both rules, whose config maps are
`"A"` and `"B"`; the recorded multiple-match failure carries
`("E", "E")` — `matchedMap` was assigned `pathToCheck.configMap` at
main.go:154, so the diagnostic of main.go:146 names the path's expected
config map twice instead of the two matched bundle names. -/
theorem uniqueness_failure_names_eval :
    checkPath matchNameP rulesAB pathPE =
      [Failure.wrongMap "p" "a" "A" "E",
       Failure.multipleMatches "p" "b" "E" "E",
       Failure.wrongMap "p" "b" "B" "E"] := by decide

/-- C5 counterexample: a rule set whose single rule names the reserved
default alias, checked over an empty inventory (no configuration or
job-configuration files discovered), records no failure at all: the
alias check of main.go:127-130 sits inside the per-path loop of
main.go:122, which never runs. -/
theorem defaultAlias_no_paths_counterexample :
    (rulesDefaultAlias.all fun r =>
      r.2.clusters.contains defaultClusterAlias) = true ∧
    validatePaths matchNameP rulesDefaultAlias [] = [] := by decide

/-- C5 (amended). Whenever at least one configuration or
job-configuration path is discovered, every rule whose cluster-alias
set contains the reserved default alias causes a failure to be
recorded, regardless of whether its pattern matches anything. -/
theorem defaultAlias_failure_of_mem_paths (m : Matcher)
    (maps : List (String × UpdateConfig)) (paths : List PathWithConfig)
    (p : PathWithConfig) (g : String) (uc : UpdateConfig)
    (hp : p ∈ paths) (hr : (g, uc) ∈ maps)
    (hal : uc.clusters.contains defaultClusterAlias = true) :
    Failure.defaultAlias p.path ∈ validatePaths m maps paths := by
  rw [validatePaths, List.mem_flatMap]
  refine ⟨p, hp, ?_⟩
  rw [checkPath, defaultAlias_mem_partitionRules]
  exact ⟨rfl, g, uc, hr, hal⟩

/-- C5 witness: the amended statement at a concrete rule set with the
default alias and one discovered path. -/
theorem defaultAlias_failure_witness :
    Failure.defaultAlias "p" ∈
      validatePaths matchNameP rulesDefaultAlias [pathPE] :=
  defaultAlias_failure_of_mem_paths matchNameP rulesDefaultAlias [pathPE]
    pathPE "**" ⟨"bundle", [defaultClusterAlias], some true⟩
    (by decide) (by decide) (by decide)

/-- C7 counterexample: with a matcher that errors on every call (as
`zglob` does for a malformed pattern such as `"["`), the checker does
record a validation failure on account of the malformed pattern: the
match against the job-configuration root at main.go:137 fails and is
recorded as an error with `foundFailures = true` (main.go:138-139),
unlike the warning-only path match at main.go:133-136. -/
theorem matchError_records_failure_counterexample :
    checkPath matchAlwaysErr [("[", ⟨"N", [], some true⟩)] pathPE =
      [Failure.jobConfigMatchError "p" "[", Failure.noMatch "p"] := by decide

/-- C7 (amended). The error of matching a path against a malformed
pattern is warning-only and the pattern counts as a non-match for that
path, with evaluation continuing over the remaining rules: the
checker's output for a path depends on the matcher only through the
boolean `matches`-with-`false`-on-error view of the path matches and
through the root matches, so replacing a path-match error by a
non-match changes nothing.  (The root-match error, by contrast, is
itself recorded as a failure — see the counterexample.) -/
theorem matchError_nonfatal_amended (m₁ m₂ : Matcher)
    (maps : List (String × UpdateConfig)) (p : PathWithConfig)
    (hpath : ∀ g, (m₁ g p.path).getD false = (m₂ g p.path).getD false)
    (hroot : ∀ g, m₁ g jobConfigRoot = m₂ g jobConfigRoot) :
    checkPath m₁ maps p = checkPath m₂ maps p := by
  have hstep : ∀ (ma : Bool) (mm g : String) (uc : UpdateConfig),
      stepFailures m₁ p ma mm g uc = stepFailures m₂ p ma mm g uc := by
    intro ma mm g uc
    unfold stepFailures
    rw [hroot g, hpath g]
  have hloop : ∀ (rules : List (String × UpdateConfig)) (ma : Bool) (mm : String),
      partitionRules m₁ p ma mm rules = partitionRules m₂ p ma mm rules := by
    intro rules
    induction rules with
    | nil => intro ma mm; rfl
    | cons r rest ih =>
        intro ma mm
        obtain ⟨g, uc⟩ := r
        rw [partitionRules, partitionRules, hstep, hpath g, ih]
  exact hloop maps false ""

/-- C7 witness: a matcher erroring everywhere and one erroring only on
the root agree on the checker's output for path `"p"`. -/
theorem matchError_nonfatal_witness :
    checkPath matchAlwaysErr rulesAB pathPE =
      checkPath matchErrRootOnly rulesAB pathPE :=
  matchError_nonfatal_amended matchAlwaysErr matchErrRootOnly rulesAB pathPE
    (fun _ => rfl) (fun _ => rfl)

/-- C8 counterexample: the same rule set iterated in two orders (Go map
iteration order is unspecified) yields different failure sets: the
multiple-match failure of main.go:146 names the glob of whichever
matching rule the iteration reaches second. -/
theorem multipleMatches_order_counterexample :
    rulesAB.Perm rulesAB.reverse ∧
    Failure.multipleMatches "p" "b" "E" "E" ∈
      validatePaths matchNameP rulesAB [pathPE] ∧
    Failure.multipleMatches "p" "b" "E" "E" ∉
      validatePaths matchNameP rulesAB.reverse [pathPE] :=
  ⟨(List.reverse_perm rulesAB).symm, by decide, by decide⟩

/-- C8 (amended). Re-running the checker on an unchanged rule set and
input tree yields an identical failure set as far as every failure kind
except the multiple-match (uniqueness) one is concerned, even when the
rule set is iterated in a different order; the multiple-match failures'
glob attribution depends on the iteration order. -/
theorem failure_set_perm_invariant (m : Matcher)
    (maps₁ maps₂ : List (String × UpdateConfig))
    (paths : List PathWithConfig) (f : Failure)
    (hperm : maps₁.Perm maps₂)
    (hnm : ∀ q gl a b, f ≠ Failure.multipleMatches q gl a b) :
    f ∈ validatePaths m maps₁ paths ↔ f ∈ validatePaths m maps₂ paths := by
  rw [validatePaths, validatePaths, List.mem_flatMap, List.mem_flatMap]
  refine exists_congr fun p => and_congr_right fun _ => ?_
  cases f with
  | defaultAlias q =>
      rw [checkPath, checkPath, defaultAlias_mem_partitionRules,
        defaultAlias_mem_partitionRules]
      refine and_congr_right fun _ => ?_
      constructor
      · rintro ⟨g, uc, hmem, hal⟩; exact ⟨g, uc, hperm.subset hmem, hal⟩
      · rintro ⟨g, uc, hmem, hal⟩; exact ⟨g, uc, hperm.symm.subset hmem, hal⟩
  | jobConfigMatchError q gl =>
      rw [checkPath, checkPath, jobConfigMatchError_mem_partitionRules,
        jobConfigMatchError_mem_partitionRules]
      exact exists_congr fun uc => and_congr_left fun _ => hperm.mem_iff
  | gzipRequired q gl =>
      rw [checkPath, checkPath, gzipRequired_mem_partitionRules,
        gzipRequired_mem_partitionRules]
      exact exists_congr fun uc => and_congr_left fun _ => hperm.mem_iff
  | multipleMatches q gl a b => exact absurd rfl (hnm q gl a b)
  | wrongMap q gl n e =>
      rw [checkPath, checkPath, wrongMap_mem_partitionRules,
        wrongMap_mem_partitionRules]
      exact exists_congr fun uc => and_congr_left fun _ => hperm.mem_iff
  | noMatch q =>
      rw [checkPath, checkPath, noMatch_mem_partitionRules,
        noMatch_mem_partitionRules]
      refine and_congr_right fun _ => and_congr_right fun _ => ?_
      constructor
      · intro h r hr; exact h r (hperm.symm.subset hr)
      · intro h r hr; exact h r (hperm.subset hr)
  | unknownKey rp j i k =>
      simp [checkPath, unknownKey_not_mem_partitionRules]
  | wrongShard rp j i k n e =>
      simp [checkPath, wrongShard_not_mem_partitionRules]

/-- C8 witness: the amended statement at a concrete permutation (the
two-rule set and its reversal) and a non-uniqueness failure. -/
theorem failure_set_perm_witness :
    Failure.noMatch "q" ∈ validatePaths matchNameP rulesAB [pathPE] ↔
      Failure.noMatch "q" ∈ validatePaths matchNameP rulesAB.reverse [pathPE] :=
  failure_set_perm_invariant matchNameP rulesAB rulesAB.reverse [pathPE]
    (Failure.noMatch "q") ((List.reverse_perm rulesAB).symm)
    (fun _ _ _ _ h => Failure.noConfusion h)

/-! ### Membership characterizations for the injection checker -/

theorem mem_checkContainers (rp j : String) (cfg : String → Option ConfigInfo) :
    ∀ (cs : List Container) (i : Nat) (f : Failure),
    f ∈ checkContainers rp j cfg i cs ↔
      ∃ d c, cs[d]? = some c ∧ ∃ e ∈ c.env, f ∈ checkEnvVar rp j (i + d) cfg e := by
  intro cs
  induction cs with
  | nil => intro i f; simp [checkContainers]
  | cons c cs ih =>
      intro i f
      rw [checkContainers]
      simp only [List.mem_append, List.mem_flatMap, ih]
      constructor
      · rintro (⟨e, he, hf⟩ | ⟨d, c', hd, e, he, hf⟩)
        · exact ⟨0, c, by simp, e, he, by simpa using hf⟩
        · refine ⟨d + 1, c', by simpa using hd, e, he, ?_⟩
          have hi : i + 1 + d = i + (d + 1) := by omega
          rwa [hi] at hf
      · rintro ⟨d, c', hd, e, he, hf⟩
        cases d with
        | zero =>
            simp only [List.getElem?_cons_zero, Option.some.injEq] at hd
            subst hd
            exact Or.inl ⟨e, he, by simpa using hf⟩
        | succ d =>
            simp only [List.getElem?_cons_succ] at hd
            refine Or.inr ⟨d, c', hd, e, he, ?_⟩
            have hi : i + (d + 1) = i + 1 + d := by omega
            rwa [hi] at hf

theorem checkEnvVar_sound (rp j : String) (i : Nat)
    (cfg : String → Option ConfigInfo) (e : EnvVar) (f : Failure)
    (hf : f ∈ checkEnvVar rp j i cfg e) :
    ∃ ref, e.name = "CONFIG_SPEC" ∧ e.valueFrom = some ref ∧
      ((cfg ref.key = none ∧ f = Failure.unknownKey rp j i ref.key) ∨
       ∃ info, cfg ref.key = some info ∧ ref.name ≠ info.configMapName ∧
         f = Failure.wrongShard rp j i ref.key ref.name info.configMapName) := by
  by_cases hn : e.name = "CONFIG_SPEC"
  · rcases hv : e.valueFrom with _ | ref
    · simp [checkEnvVar, hn, hv] at hf
    · rcases hk : cfg ref.key with _ | info
      · simp [checkEnvVar, hn, hv, hk] at hf
        exact ⟨ref, hn, rfl, Or.inl ⟨hk, hf⟩⟩
      · by_cases hne : ref.name = info.configMapName
        · simp [checkEnvVar, hn, hv, hk, hne] at hf
        · simp [checkEnvVar, hn, hv, hk, hne] at hf
          exact ⟨ref, hn, rfl, Or.inr ⟨info, hk, hne, hf⟩⟩
  · simp [checkEnvVar, hn] at hf

/-- C4. Injection consistency: for an injection reference — a
`CONFIG_SPEC` environment entry of the container at index `i` carrying
a config-map key reference — the checker records exactly the
unknown-key failure when the key is absent from the index
(main.go:179-184), exactly the wrong-shard failure with both names when
the key is present but the referenced config-map name differs
(main.go:185-191), and no failure for that reference when they agree. -/
theorem injection_reference_check (spec : PodSpec) (relPath jobName : String)
    (cfg : String → Option ConfigInfo) (i : Nat) (c : Container)
    (e : EnvVar) (ref : ConfigMapKeyRef)
    (hc : spec.containers[i]? = some c) (he : e ∈ c.env)
    (hn : e.name = "CONFIG_SPEC") (hv : e.valueFrom = some ref) :
    (cfg ref.key = none →
      Failure.unknownKey relPath jobName i ref.key ∈
          checkSpec spec relPath jobName cfg ∧
        ∀ got exp, Failure.wrongShard relPath jobName i ref.key got exp ∉
          checkSpec spec relPath jobName cfg) ∧
    (∀ info, cfg ref.key = some info → ref.name ≠ info.configMapName →
      Failure.wrongShard relPath jobName i ref.key ref.name info.configMapName ∈
          checkSpec spec relPath jobName cfg ∧
        Failure.unknownKey relPath jobName i ref.key ∉
          checkSpec spec relPath jobName cfg) ∧
    (∀ info, cfg ref.key = some info → ref.name = info.configMapName →
      Failure.unknownKey relPath jobName i ref.key ∉
          checkSpec spec relPath jobName cfg ∧
        ∀ exp, Failure.wrongShard relPath jobName i ref.key ref.name exp ∉
          checkSpec spec relPath jobName cfg) := by
  refine ⟨fun hk => ⟨?_, ?_⟩, fun info hk hne => ⟨?_, ?_⟩, fun info hk heq => ⟨?_, ?_⟩⟩
  · rw [checkSpec, mem_checkContainers]
    exact ⟨i, c, hc, e, he, by simp [checkEnvVar, hn, hv, hk]⟩
  · intro got exp hmem
    rw [checkSpec, mem_checkContainers] at hmem
    obtain ⟨d, c', hd, e', he', hf⟩ := hmem
    obtain ⟨ref', hn', hv', hcase⟩ := checkEnvVar_sound _ _ _ _ _ _ hf
    rcases hcase with ⟨hk', heq'⟩ | ⟨info', hk', hne', heq'⟩
    · exact Failure.noConfusion heq'.symm
    · obtain ⟨-, -, -, hkey, -, -⟩ := Failure.wrongShard.inj heq'.symm
      rw [hkey] at hk'
      rw [hk] at hk'
      exact Option.noConfusion hk'
  · rw [checkSpec, mem_checkContainers]
    exact ⟨i, c, hc, e, he, by simp [checkEnvVar, hn, hv, hk, hne]⟩
  · intro hmem
    rw [checkSpec, mem_checkContainers] at hmem
    obtain ⟨d, c', hd, e', he', hf⟩ := hmem
    obtain ⟨ref', hn', hv', hcase⟩ := checkEnvVar_sound _ _ _ _ _ _ hf
    rcases hcase with ⟨hk', heq'⟩ | ⟨info', hk', hne', heq'⟩
    · obtain ⟨-, -, -, hkey⟩ := Failure.unknownKey.inj heq'.symm
      rw [hkey] at hk'
      rw [hk] at hk'
      exact Option.noConfusion hk'
    · exact Failure.noConfusion heq'.symm
  · intro hmem
    rw [checkSpec, mem_checkContainers] at hmem
    obtain ⟨d, c', hd, e', he', hf⟩ := hmem
    obtain ⟨ref', hn', hv', hcase⟩ := checkEnvVar_sound _ _ _ _ _ _ hf
    rcases hcase with ⟨hk', heq'⟩ | ⟨info', hk', hne', heq'⟩
    · obtain ⟨-, -, -, hkey⟩ := Failure.unknownKey.inj heq'.symm
      rw [hkey] at hk'
      rw [hk] at hk'
      exact Option.noConfusion hk'
    · exact Failure.noConfusion heq'.symm
  · intro exp hmem
    rw [checkSpec, mem_checkContainers] at hmem
    obtain ⟨d, c', hd, e', he', hf⟩ := hmem
    obtain ⟨ref', hn', hv', hcase⟩ := checkEnvVar_sound _ _ _ _ _ _ hf
    rcases hcase with ⟨hk', heq'⟩ | ⟨info', hk', hne', heq'⟩
    · exact Failure.noConfusion heq'.symm
    · obtain ⟨-, -, -, hkey, hname, -⟩ := Failure.wrongShard.inj heq'.symm
      rw [hkey] at hk'
      rw [hk] at hk'
      obtain rfl := Option.some.inj hk'
      exact hne' (hname ▸ heq)

/-- C4 witness: the trichotomy at a concrete spec whose single container
injects key `"k1"` expecting `"BundleX"` while the index maps `"k1"` to
`"BundleY"`. -/
theorem injection_reference_check_witness :
    (cfgY refK.key = none →
      Failure.unknownKey "rel" "job" 0 refK.key ∈
          checkSpec specOne "rel" "job" cfgY ∧
        ∀ got exp, Failure.wrongShard "rel" "job" 0 refK.key got exp ∉
          checkSpec specOne "rel" "job" cfgY) ∧
    (∀ info, cfgY refK.key = some info → refK.name ≠ info.configMapName →
      Failure.wrongShard "rel" "job" 0 refK.key refK.name info.configMapName ∈
          checkSpec specOne "rel" "job" cfgY ∧
        Failure.unknownKey "rel" "job" 0 refK.key ∉
          checkSpec specOne "rel" "job" cfgY) ∧
    (∀ info, cfgY refK.key = some info → refK.name = info.configMapName →
      Failure.unknownKey "rel" "job" 0 refK.key ∉
          checkSpec specOne "rel" "job" cfgY ∧
        ∀ exp, Failure.wrongShard "rel" "job" 0 refK.key refK.name exp ∉
          checkSpec specOne "rel" "job" cfgY) :=
  injection_reference_check specOne "rel" "job" cfgY 0 ⟨[envInj]⟩ envInj refK
    (by decide) (by decide) rfl rfl

/-! ### The configuration index -/

theorem foldl_indexInsert_skip (k : String) :
    ∀ (l : List (String × ConfigInfo)) (m0 : String → Option ConfigInfo),
    (∀ e ∈ l, e.1 ≠ k) → l.foldl indexInsert m0 k = m0 k := by
  intro l
  induction l with
  | nil => intro m0 _; rfl
  | cons a l ih =>
      intro m0 h
      rw [List.foldl_cons, ih _ (fun e he => h e (List.mem_cons_of_mem a he))]
      show (if k = a.1 then some a.2 else m0 k) = m0 k
      rw [if_neg]
      intro hk
      exact h a (List.mem_cons_self a l) hk.symm

/-- C9. Duplicate basename keys: when a key `k` occurs more than once in
the traversal, the index built at main.go:77-85 retains only the entry
traversed last for `k` — the traversal records no duplicate-key failure
(its callback only appends to the inventory and writes the map) — and
every injection reference using `k` is validated against the retained
entry's config-map name alone. -/
theorem configIndex_last_wins (pre post : List (String × ConfigInfo))
    (k : String) (v : ConfigInfo)
    (hpost : ∀ e ∈ post, e.1 ≠ k) :
    buildConfigIndex (pre ++ (k, v) :: post) k = some v ∧
    ∀ (rp j : String) (i : Nat) (e : EnvVar) (ref : ConfigMapKeyRef),
      e.name = "CONFIG_SPEC" → e.valueFrom = some ref → ref.key = k →
      checkEnvVar rp j i (buildConfigIndex (pre ++ (k, v) :: post)) e =
        if ref.name ≠ v.configMapName then
          [Failure.wrongShard rp j i k ref.name v.configMapName]
        else [] := by
  have hidx : buildConfigIndex (pre ++ (k, v) :: post) k = some v := by
    rw [buildConfigIndex, List.foldl_append, List.foldl_cons,
      foldl_indexInsert_skip k post _ hpost]
    show (if k = k then some v else _) = some v
    rw [if_pos rfl]
  refine ⟨hidx, ?_⟩
  intro rp j i e ref hn hv hk
  subst hk
  simp [checkEnvVar, hn, hv, hidx]

/-- C9 witness: key `"k1"` is written twice; the index retains the
second value `"B"` and an injection reference to `"k1"` is checked
against `"B"` alone. -/
theorem configIndex_last_wins_witness :
    buildConfigIndex
        ([("k1", ⟨"A"⟩)] ++ ("k1", (⟨"B"⟩ : ConfigInfo)) :: [("k2", ⟨"C"⟩)]) "k1" =
      some ⟨"B"⟩ ∧
    ∀ (rp j : String) (i : Nat) (e : EnvVar) (ref : ConfigMapKeyRef),
      e.name = "CONFIG_SPEC" → e.valueFrom = some ref → ref.key = "k1" →
      checkEnvVar rp j i
          (buildConfigIndex
            ([("k1", ⟨"A"⟩)] ++ ("k1", (⟨"B"⟩ : ConfigInfo)) :: [("k2", ⟨"C"⟩)])) e =
        if ref.name ≠ ConfigInfo.configMapName ⟨"B"⟩ then
          [Failure.wrongShard rp j i "k1" ref.name (ConfigInfo.configMapName ⟨"B"⟩)]
        else [] :=
  configIndex_last_wins [("k1", ⟨"A"⟩)] [("k2", ⟨"C"⟩)] "k1" ⟨"B"⟩ (by decide)

/-- C10. Injection references are read only from the pod spec's main
containers: `checkSpec` (main.go:170) iterates `spec.Containers` alone,
so its output is unchanged under any replacement of the init containers,
and a spec with no main containers yields no injection failure whatever
its init containers hold. -/
theorem initContainers_not_checked (cs ics₁ ics₂ : List Container)
    (rp j : String) (cfg : String → Option ConfigInfo) :
    checkSpec ⟨cs, ics₁⟩ rp j cfg = checkSpec ⟨cs, ics₂⟩ rp j cfg ∧
    checkSpec ⟨[], ics₁⟩ rp j cfg = [] :=
  ⟨rfl, rfl⟩
